import Mathlib

/-!
Shallow embedding of the FLWA animation container decoder implemented in
scripts/view_animation.py, with proofs about its header parsing, index
table parsing and frame decoding behaviour.

Modelling conventions:
* A file is a list of byte values (natural numbers, below 256 in practice).
* Python f.seek(pos) followed by f.read(n) is readAt file pos n, which
  returns at most n bytes, fewer when the end of the file is reached.
  read_header performs its reads sequentially from position 0, so each of
  its reads happens at a fixed offset on every path that inspects it.
* struct.unpack raises struct.error when the preceding read returned fewer
  bytes than the format requires; unpackLE models this.
* A 32-bit float value is represented by the natural number assembled from
  its four little-endian bytes, that is by its IEEE-754 bit pattern.
  numpy.frombuffer reinterprets bytes without any arithmetic, so this
  representation is exact.
* The exceptions raised by the script are the constructors of ViewerError:
  ValueError on bad magic bytes, ValueError on an unsupported version,
  struct.error on a short unpack, OSError on a negative seek target,
  ValueError for nonzero compression, ValueError from numpy.frombuffer
  when the buffer size is not a multiple of four, ValueError from
  numpy.reshape when the element count does not match the grid shape, and
  IndexError for a frame access outside the preloaded frame list.
-/

namespace Flwa

/-- Bytes obtained by seeking to pos and reading n bytes from file. -/
def readAt (file : List Nat) (pos n : Nat) : List Nat :=
  (file.drop pos).take n

/-- Little-endian interpretation of a byte list as a natural number. -/
def leNat : List Nat → Nat
  | [] => 0
  | b :: rest => b + 256 * leNat rest

/-- Exceptions raised by view_animation.py, one constructor per raise site. -/
inductive ViewerError where
  | invalidMagic (magic : List Nat) : ViewerError
  | unsupportedVersion (version : Nat) : ViewerError
  | structError : ViewerError
  | negativeSeekError : ViewerError
  | compressionUnsupported : ViewerError
  | bufferSizeError : ViewerError
  | reshapeError : ViewerError
  | frameIndexError : ViewerError
  deriving DecidableEq

/-- Model of struct.unpack applied to the bytes produced by one read:
succeeds with the little-endian value when exactly n bytes were read. -/
def unpackLE (bs : List Nat) (n : Nat) : Except ViewerError Nat :=
  if bs.length = n then .ok (leNat bs) else .error .structError

/-- FLWA file header (class AnimationHeader in the script). The dt field
stores the 32-bit little-endian pattern of the float. -/
structure AnimationHeader where
  width : Nat
  height : Nat
  depth : Nat
  channels : Nat
  frame_count : Nat
  dt : Nat
  compression : Nat
  delta_encoding : Bool
  deriving DecidableEq

/-- Frame index entry (class FrameIndex in the script). -/
structure FrameIndex where
  offset : Nat
  size : Nat
  deriving DecidableEq

/-- The required 4-byte magic tag, the ASCII bytes of FLWA. -/
def magicBytes : List Nat := [70, 76, 87, 65]

/-- read_header from view_animation.py. Reads the magic tag, version,
flags (low 4 bits compression codec, bit 4 delta flag), four u32
dimensions, a u64 frame count and an f32 dt, then skips 16 reserved
bytes (which may be short without error). -/
def read_header (file : List Nat) : Except ViewerError AnimationHeader :=
  if readAt file 0 4 ≠ magicBytes then
    .error (.invalidMagic (readAt file 0 4))
  else
    (unpackLE (readAt file 4 2) 2).bind fun version =>
    if version ≠ 1 then
      .error (.unsupportedVersion version)
    else
      (unpackLE (readAt file 6 2) 2).bind fun flags =>
      (unpackLE (readAt file 8 4) 4).bind fun width =>
      (unpackLE (readAt file 12 4) 4).bind fun height =>
      (unpackLE (readAt file 16 4) 4).bind fun depth =>
      (unpackLE (readAt file 20 4) 4).bind fun channels =>
      (unpackLE (readAt file 24 8) 8).bind fun frame_count =>
      (unpackLE (readAt file 32 4) 4).bind fun dt =>
      .ok ⟨width, height, depth, channels, frame_count, dt,
           flags &&& 0x0F, flags &&& (1 <<< 4) != 0⟩

/-- Loop body of read_frame_indices: reads n index entries sequentially,
each a u64 offset followed by a u64 size, starting at pos. -/
def readEntries (file : List Nat) : Nat → Nat → Except ViewerError (List FrameIndex)
  | _, 0 => .ok []
  | pos, n + 1 =>
    (unpackLE (readAt file pos 8) 8).bind fun offset =>
    (unpackLE (readAt file (pos + 8) 8) 8).bind fun size =>
    (readEntries file (pos + 16) n).map fun rest =>
      ⟨offset, size⟩ :: rest

/-- read_frame_indices from view_animation.py: seeks to the end to obtain
the file length, computes the index start as file length minus
frame_count * 16 and reads frame_count entries from there. A negative
seek target raises OSError; there is no other validation of the start. -/
def read_frame_indices (file : List Nat) (header : AnimationHeader) :
    Except ViewerError (List FrameIndex) :=
  if ((file.length : Int) - (header.frame_count : Int) * 16) < 0 then
    .error .negativeSeekError
  else
    readEntries file ((file.length : Int) - (header.frame_count : Int) * 16).toNat
      header.frame_count

/-- numpy.frombuffer with dtype float32 over a byte list: every four
little-endian bytes become one 32-bit pattern; a trailing fragment of
fewer than four bytes produces no element (the caller checks the length
is a multiple of four first). -/
def bytesToF32List : List Nat → List Nat
  | b0 :: b1 :: b2 :: b3 :: rest => leNat [b0, b1, b2, b3] :: bytesToF32List rest
  | [] => []
  | [_] => []
  | [_, _] => []
  | [_, _, _] => []

/-- Per-channel decode loop of read_frame: for channel index c the slice
data[c*grid_size*4 : (c+1)*grid_size*4] is reinterpreted as float32
values (ValueError when its length is not a multiple of 4) and reshaped
to (depth, height, width) (ValueError when the element count differs
from grid_size). Channels are represented as flat rows of grid_size bit
patterns in C order, depth-major then row-major. -/
def decodeChannels (data : List Nat) (grid_size : Nat) :
    Nat → Nat → Except ViewerError (List (List Nat))
  | _, 0 => .ok []
  | c, n + 1 =>
    if (readAt data (c * grid_size * 4) (grid_size * 4)).length % 4 ≠ 0 then
      .error .bufferSizeError
    else if (bytesToF32List (readAt data (c * grid_size * 4) (grid_size * 4))).length
        ≠ grid_size then
      .error .reshapeError
    else
      (decodeChannels data grid_size (c + 1) n).map fun rest =>
        bytesToF32List (readAt data (c * grid_size * 4) (grid_size * 4)) :: rest

/-- read_frame from view_animation.py: seeks to the entry offset, reads
size bytes (possibly fewer near end of file, without error), raises for
any nonzero compression codec, then decodes the channels. The delta
encoding flag is never consulted. -/
def read_frame (file : List Nat) (header : AnimationHeader) (index : FrameIndex) :
    Except ViewerError (List (List Nat)) :=
  if header.compression ≠ 0 then
    .error .compressionUnsupported
  else
    decodeChannels (readAt file index.offset index.size)
      (header.width * header.height * header.depth) 0 header.channels

/-- State of an opened container in main: the read-only file bytes, the
header and index list parsed once at open, and the file handle position.
After open the position is at end of file, since the index table ends
exactly there. -/
structure AnimationReader where
  file : List Nat
  header : AnimationHeader
  indices : List FrameIndex
  pos : Nat
  deriving DecidableEq

/-- Opening a container as main does: parse the header, then the index
table. No frame payload is decoded here. -/
def openContainer (file : List Nat) : Except ViewerError AnimationReader :=
  (read_header file).bind fun header =>
  (read_frame_indices file header).map fun indices =>
    ⟨file, header, indices, file.length⟩

/-- Retrieval of frame i: decode the payload described by index entry i.
Only the file position component of the reader state changes; the parsed
header and index list are left untouched. An index outside the entry
list raises IndexError. -/
def get_frame (r : AnimationReader) (i : Nat) :
    Except ViewerError (List (List Nat)) × AnimationReader :=
  match r.indices[i]? with
  | none => (.error .frameIndexError, r)
  | some idx =>
    (read_frame r.file r.header idx,
     ⟨r.file, r.header, r.indices,
      max idx.offset (min (idx.offset + idx.size) r.file.length)⟩)

/-- Helper describing the value decodeChannels returns on success: one
flat row of bit patterns per channel, channel c taken from the byte
range starting at c*grid_size*4. -/
def expectedChannels (data : List Nat) (grid_size : Nat) : Nat → Nat → List (List Nat)
  | _, 0 => []
  | c, n + 1 =>
    bytesToF32List (readAt data (c * grid_size * 4) (grid_size * 4)) ::
      expectedChannels data grid_size (c + 1) n

/-- Helper describing the value readEntries returns on success: entry j
is the u64 pair at byte offset pos + 16*j. -/
def expectedEntries (file : List Nat) : Nat → Nat → List FrameIndex
  | _, 0 => []
  | pos, n + 1 =>
    ⟨leNat (readAt file pos 8), leNat (readAt file (pos + 8) 8)⟩ ::
      expectedEntries file (pos + 16) n

/-- Container with two 2x1x1 single-channel frames and the delta flag set
(flags = 16). Frame 0 stores 1.0, 1.0 and frame 1 stores 0.5, -0.5 as
float32 bit patterns. Header is 52 bytes, payloads at 52 and 60, index
table at 68, total length 100. -/
def c1File : List Nat :=
  [70, 76, 87, 65,
   1, 0,
   16, 0,
   2, 0, 0, 0,
   1, 0, 0, 0,
   1, 0, 0, 0,
   1, 0, 0, 0,
   2, 0, 0, 0, 0, 0, 0, 0,
   0, 0, 0, 0,
   0, 0, 0, 0, 0, 0, 0, 0, 0, 0, 0, 0, 0, 0, 0, 0,
   0, 0, 128, 63, 0, 0, 128, 63,
   0, 0, 0, 63, 0, 0, 0, 191,
   52, 0, 0, 0, 0, 0, 0, 0, 8, 0, 0, 0, 0, 0, 0, 0,
   60, 0, 0, 0, 0, 0, 0, 0, 8, 0, 0, 0, 0, 0, 0, 0]

/-- Header parsed from c1File. -/
def c1Header : AnimationHeader := ⟨2, 1, 1, 1, 2, 0, 0, true⟩

/-- Reader state after opening c1File. -/
def c1Reader : AnimationReader :=
  ⟨c1File, c1Header, [⟨52, 8⟩, ⟨60, 8⟩], 100⟩

/-- Payload used as input for the round-trip witness: two channels of one
float each, bit patterns 0x3F800000 (1.0) and 0x3F000000 (0.5). -/
def c2File : List Nat := [0, 0, 128, 63, 0, 0, 0, 63]

/-- Header for the round-trip witness: 1x1x1 grid, two channels, codec 0. -/
def c2Header : AnimationHeader := ⟨1, 1, 1, 2, 1, 0, 0, false⟩

/-- File used for the unsupported-compression counterexample; its bytes
are irrelevant because read_frame raises before decoding. -/
def c4File : List Nat := [0, 0, 0, 0]

/-- Header with compression codec 7. -/
def c4Header7 : AnimationHeader := ⟨1, 1, 1, 1, 1, 0, 7, false⟩

/-- Header with compression codec 3. -/
def c4Header3 : AnimationHeader := ⟨1, 1, 1, 1, 1, 0, 3, false⟩

/-- Header with compression codec 0. -/
def c4Header0 : AnimationHeader := ⟨1, 1, 1, 1, 1, 0, 0, false⟩

/-- Index entry used by the codec counterexample. -/
def c4Idx : FrameIndex := ⟨0, 4⟩

/-- Container with a 1x1x1 single-channel frame whose index entry reports
size 8, twice the 4 bytes the grid needs: payload bytes 52..59 hold the
pattern of 1.0 followed by four extra bytes. Total length 76. -/
def c5File : List Nat :=
  [70, 76, 87, 65,
   1, 0,
   0, 0,
   1, 0, 0, 0,
   1, 0, 0, 0,
   1, 0, 0, 0,
   1, 0, 0, 0,
   1, 0, 0, 0, 0, 0, 0, 0,
   0, 0, 0, 0,
   0, 0, 0, 0, 0, 0, 0, 0, 0, 0, 0, 0, 0, 0, 0, 0,
   0, 0, 128, 63, 0, 0, 0, 0,
   52, 0, 0, 0, 0, 0, 0, 0, 8, 0, 0, 0, 0, 0, 0, 0]

/-- Header parsed from c5File. -/
def c5Header : AnimationHeader := ⟨1, 1, 1, 1, 1, 0, 0, false⟩

/-- Well-formed container with one 1x1x1 single-channel frame: 52-byte
header, 4-byte payload at 52, index entry (52, 4) at 56, length 72. -/
def c6File : List Nat :=
  [70, 76, 87, 65,
   1, 0,
   0, 0,
   1, 0, 0, 0,
   1, 0, 0, 0,
   1, 0, 0, 0,
   1, 0, 0, 0,
   1, 0, 0, 0, 0, 0, 0, 0,
   0, 0, 0, 0,
   0, 0, 0, 0, 0, 0, 0, 0, 0, 0, 0, 0, 0, 0, 0, 0,
   0, 0, 128, 63,
   52, 0, 0, 0, 0, 0, 0, 0, 4, 0, 0, 0, 0, 0, 0, 0]

/-- Header parsed from c6File. -/
def c6Header : AnimationHeader := ⟨1, 1, 1, 1, 1, 0, 0, false⟩

/-- Header-only container whose frame count is zero: 52 bytes, no payload
and no index entries. -/
def c10File : List Nat :=
  [70, 76, 87, 65,
   1, 0,
   0, 0,
   1, 0, 0, 0,
   1, 0, 0, 0,
   1, 0, 0, 0,
   1, 0, 0, 0,
   0, 0, 0, 0, 0, 0, 0, 0,
   0, 0, 0, 0,
   0, 0, 0, 0, 0, 0, 0, 0, 0, 0, 0, 0, 0, 0, 0, 0]

/-- Header parsed from c10File. -/
def c10Header : AnimationHeader := ⟨1, 1, 1, 1, 0, 0, 0, false⟩

/-- c10File with the high flags byte replaced by 255, so the two files
differ only in flags bits 8 through 15. -/
def c8FileB : List Nat := c10File.set 7 255

theorem except_bind_ok {α β : Type} (a : α) (k : α → Except ViewerError β) :
    (Except.ok a).bind k = k a := rfl

theorem except_map_ok {α β : Type} (f : α → β) (a : α) :
    (Except.ok a : Except ViewerError α).map f = .ok (f a) := rfl

theorem bind_ite_unpack {β : Type} (bs : List Nat) (n : Nat)
    (k : Nat → Except ViewerError β) :
    (unpackLE bs n).bind k =
      if bs.length = n then k (leNat bs) else .error .structError := by
  unfold unpackLE
  split <;> rfl

theorem unpackLE_ok (bs : List Nat) (n : Nat) (h : bs.length = n) :
    unpackLE bs n = .ok (leNat bs) := by
  simp [unpackLE, h]

theorem readAt_length (file : List Nat) (pos n : Nat) :
    (readAt file pos n).length = min n (file.length - pos) := by
  simp [readAt]

theorem readAt_zero (file : List Nat) (n : Nat) : readAt file 0 n = file.take n := by
  simp [readAt]

theorem readAt_of_take {f1 f2 : List Nat} {m : Nat} (h : f1.take m = f2.take m)
    {p n : Nat} (hpn : p + n ≤ m) :
    readAt f1 p n = readAt f2 p n := by
  have key : ∀ f : List Nat, readAt f p n = ((f.take m).drop p).take n := by
    intro f
    rw [List.drop_take, List.take_take, Nat.min_eq_left (by omega)]
    rfl
  rw [key f1, key f2, h]

theorem readAt_of_drop {f1 f2 : List Nat} {m : Nat} (h : f1.drop m = f2.drop m)
    {p n : Nat} (hmp : m ≤ p) :
    readAt f1 p n = readAt f2 p n := by
  have key : ∀ f : List Nat, readAt f p n = ((f.drop m).drop (p - m)).take n := by
    intro f
    rw [List.drop_drop]
    simp only [readAt]
    congr 2
    omega
  rw [key f1, key f2, h]

theorem readAt_readAt (data : List Nat) (s L k n : Nat) (h : k + n ≤ L) :
    readAt (readAt data s L) k n = readAt data (s + k) n := by
  simp only [readAt, List.drop_take, List.drop_drop, List.take_take]
  rw [Nat.min_eq_left (by omega)]

theorem bytesToF32List_length : ∀ bs : List Nat,
    (bytesToF32List bs).length = bs.length / 4
  | [] => by simp [bytesToF32List]
  | [_] => by simp [bytesToF32List]
  | [_, _] => by simp [bytesToF32List]
  | [_, _, _] => by simp [bytesToF32List]
  | _ :: _ :: _ :: _ :: rest => by
    have ih := bytesToF32List_length rest
    simp only [bytesToF32List, List.length_cons, ih]
    omega

theorem bytesToF32List_get : ∀ (k : Nat) (bs : List Nat), 4 * k + 4 ≤ bs.length →
    (bytesToF32List bs)[k]? = some (leNat (readAt bs (4 * k) 4))
  | _, [], h => by simp at h
  | _, [_], h => by simp at h
  | _, [_, _], h => by simp at h
  | _, [_, _, _], h => by simp at h
  | 0, a :: b :: c :: d :: rest, _ => by
    simp [bytesToF32List, readAt, leNat]
  | k + 1, a :: b :: c :: d :: rest, h => by
    have ih := bytesToF32List_get k rest (by simp at h ⊢; omega)
    have e4 : 4 * (k + 1) = 4 * k + 1 + 1 + 1 + 1 := by ring
    have edrop : (a :: b :: c :: d :: rest).drop (4 * (k + 1)) = rest.drop (4 * k) := by
      rw [e4]
      rfl
    simp only [bytesToF32List, List.getElem?_cons_succ, ih, readAt, edrop]

theorem expectedChannels_length (data : List Nat) (gs : Nat) :
    ∀ n c, (expectedChannels data gs c n).length = n
  | 0, _ => rfl
  | n + 1, c => by
    simp [expectedChannels, expectedChannels_length data gs n (c + 1)]

theorem expectedChannels_get (data : List Nat) (gs : Nat) :
    ∀ (n c j : Nat), j < n →
      (expectedChannels data gs c n)[j]? =
        some (bytesToF32List (readAt data ((c + j) * gs * 4) (gs * 4)))
  | 0, _, j, hj => absurd hj (by omega)
  | n + 1, c, 0, _ => by simp [expectedChannels]
  | n + 1, c, j + 1, hj => by
    have ih := expectedChannels_get data gs n (c + 1) j (by omega)
    have e : c + 1 + j = c + (j + 1) := by omega
    rw [e] at ih
    simp only [expectedChannels, List.getElem?_cons_succ, ih]

theorem readAt_slice_full (data : List Nat) (gs c : Nat)
    (h : c * (gs * 4) + gs * 4 ≤ data.length) :
    (readAt data (c * gs * 4) (gs * 4)).length = gs * 4 := by
  rw [readAt_length]
  have h2 : c * gs * 4 = c * (gs * 4) := by ring
  rw [h2]
  generalize c * (gs * 4) = A at h ⊢
  omega

theorem readAt_slice_short (data : List Nat) (gs c : Nat)
    (h : data.length < c * (gs * 4) + gs * 4) :
    (readAt data (c * gs * 4) (gs * 4)).length < gs * 4 := by
  have hg : 0 < gs * 4 := by
    rcases Nat.eq_zero_or_pos (gs * 4) with h0 | hp
    · rw [h0, Nat.mul_zero] at h
      omega
    · exact hp
  rw [readAt_length]
  have h2 : c * gs * 4 = c * (gs * 4) := by ring
  rw [h2]
  generalize c * (gs * 4) = A at h ⊢
  omega

theorem decodeChannels_cons (data : List Nat) (gs c n : Nat)
    (hsl : (readAt data (c * gs * 4) (gs * 4)).length = gs * 4) :
    decodeChannels data gs c (n + 1) =
      (decodeChannels data gs (c + 1) n).map fun rest =>
        bytesToF32List (readAt data (c * gs * 4) (gs * 4)) :: rest := by
  have hflen : (bytesToF32List (readAt data (c * gs * 4) (gs * 4))).length = gs := by
    rw [bytesToF32List_length, hsl]
    omega
  conv_lhs => rw [decodeChannels]
  rw [if_neg (by rw [hsl]; omega), if_neg (by rw [hflen]; omega)]

theorem decodeChannels_step_err (data : List Nat) (gs c n : Nat)
    (hshort : (readAt data (c * gs * 4) (gs * 4)).length < gs * 4) :
    ∃ e, decodeChannels data gs c (n + 1) = .error e := by
  by_cases hm : (readAt data (c * gs * 4) (gs * 4)).length % 4 = 0
  · refine ⟨.reshapeError, ?_⟩
    unfold decodeChannels
    rw [if_neg (by omega), if_pos (by rw [bytesToF32List_length]; omega)]
  · refine ⟨.bufferSizeError, ?_⟩
    unfold decodeChannels
    rw [if_pos hm]

theorem decodeChannels_ok (data : List Nat) (gs : Nat) :
    ∀ (n c : Nat), (c + n) * (gs * 4) ≤ data.length →
      decodeChannels data gs c n = .ok (expectedChannels data gs c n)
  | 0, _, _ => rfl
  | n + 1, c, hle => by
    have hc1 : c * (gs * 4) + gs * 4 ≤ data.length := by
      have h1 : (c + 1) * (gs * 4) ≤ (c + (n + 1)) * (gs * 4) :=
        Nat.mul_le_mul_right _ (by omega)
      have h2 : (c + 1) * (gs * 4) = c * (gs * 4) + gs * 4 := by ring
      omega
    have hle2 : (c + 1 + n) * (gs * 4) ≤ data.length := by
      have e : c + 1 + n = c + (n + 1) := by omega
      rw [e]
      exact hle
    rw [decodeChannels_cons data gs c n (readAt_slice_full data gs c hc1),
        decodeChannels_ok data gs n (c + 1) hle2]
    rfl

theorem decodeChannels_err (data : List Nat) (gs : Nat) :
    ∀ (n c : Nat), 0 < n → data.length < (c + n) * (gs * 4) →
      ∃ e, decodeChannels data gs c n = .error e
  | 0, _, h0, _ => absurd h0 (by omega)
  | 1, c, _, hlt => by
    apply decodeChannels_step_err
    apply readAt_slice_short
    have h2 : (c + 1) * (gs * 4) = c * (gs * 4) + gs * 4 := by ring
    rw [← h2]
    exact hlt
  | n + 2, c, _, hlt => by
    by_cases hfull : c * (gs * 4) + gs * 4 ≤ data.length
    · -- the slice for channel c is complete, so the failure is later
      have hbound : data.length < (c + 1 + (n + 1)) * (gs * 4) := by
        have e : c + 1 + (n + 1) = c + (n + 2) := by omega
        rw [e]
        exact hlt
      rcases decodeChannels_err data gs (n + 1) (c + 1) (by omega) hbound with ⟨e, he⟩
      refine ⟨e, ?_⟩
      rw [decodeChannels_cons data gs c (n + 1) (readAt_slice_full data gs c hfull), he]
      rfl
    · -- the slice for channel c is short, so this channel fails
      apply decodeChannels_step_err
      apply readAt_slice_short
      omega

theorem decodeChannels_no_comp (data : List Nat) (gs : Nat) :
    ∀ (n c : Nat), decodeChannels data gs c n ≠ .error .compressionUnsupported
  | 0, _ => by simp [decodeChannels]
  | n + 1, c => by
    have ih := decodeChannels_no_comp data gs n (c + 1)
    unfold decodeChannels
    split
    · simp
    · split
      · simp
      · cases hrec : decodeChannels data gs (c + 1) n with
        | ok l => simp [Except.map]
        | error e =>
          rw [hrec] at ih
          simp only [Except.map]
          intro hcon
          injection hcon with he
          exact ih (by rw [he])

theorem expectedEntries_length (file : List Nat) :
    ∀ n pos, (expectedEntries file pos n).length = n
  | 0, _ => rfl
  | n + 1, pos => by
    simp [expectedEntries, expectedEntries_length file n (pos + 16)]

theorem expectedEntries_get (file : List Nat) :
    ∀ (n pos i : Nat), i < n →
      (expectedEntries file pos n)[i]? =
        some ⟨leNat (readAt file (pos + 16 * i) 8),
              leNat (readAt file (pos + 16 * i + 8) 8)⟩
  | 0, _, i, hi => absurd hi (by omega)
  | n + 1, pos, 0, _ => by simp [expectedEntries]
  | n + 1, pos, i + 1, hi => by
    have ih := expectedEntries_get file n (pos + 16) i (by omega)
    have e1 : pos + 16 + 16 * i = pos + 16 * (i + 1) := by omega
    rw [e1] at ih
    simp only [expectedEntries, List.getElem?_cons_succ, ih]

theorem readEntries_ok (file : List Nat) :
    ∀ (n pos : Nat), pos + 16 * n ≤ file.length →
      readEntries file pos n = .ok (expectedEntries file pos n)
  | 0, _, _ => rfl
  | n + 1, pos, hle => by
    have h8 : (readAt file pos 8).length = 8 := by rw [readAt_length]; omega
    have h8b : (readAt file (pos + 8) 8).length = 8 := by rw [readAt_length]; omega
    unfold readEntries
    rw [unpackLE_ok _ _ h8, except_bind_ok, unpackLE_ok _ _ h8b, except_bind_ok,
        readEntries_ok file n (pos + 16) (by omega)]
    rfl

theorem get_frame_preserves (r : AnimationReader) (i : Nat) :
    (get_frame r i).2.header = r.header ∧
    (get_frame r i).2.indices = r.indices ∧
    (get_frame r i).2.file = r.file := by
  unfold get_frame
  cases r.indices[i]? <;> exact ⟨rfl, rfl, rfl⟩

theorem land_low_five {x y : Nat} (h : x &&& 31 = y &&& 31) :
    x &&& 15 = y &&& 15 ∧ (x &&& 1 <<< 4 != 0) = (y &&& 1 <<< 4 != 0) := by
  have m32 : ∀ z : Nat, z &&& 31 = z % 32 := fun z => by
    have h5 := Nat.and_pow_two_sub_one_eq_mod z 5
    norm_num at h5
    exact h5
  have m16 : ∀ z : Nat, z &&& 15 = z % 16 := fun z => by
    have h4 := Nat.and_pow_two_sub_one_eq_mod z 4
    norm_num at h4
    exact h4
  have hmod : x % 32 = y % 32 := by
    rw [← m32, ← m32, h]
  constructor
  · rw [m16, m16]
    omega
  · have t16 : ∀ z : Nat, z &&& 1 <<< 4 = (z.testBit 4).toNat * 16 := fun z => by
      have ha := Nat.and_two_pow z 4
      norm_num at ha
      exact ha
    have ht : x.testBit 4 = y.testBit 4 := by
      rw [Nat.testBit_to_div_mod, Nat.testBit_to_div_mod]
      have hd : x / 2 ^ 4 % 2 = y / 2 ^ 4 % 2 := by
        norm_num
        omega
      rw [hd]
    rw [t16, t16, ht]

theorem index3_lt {z y x d hh w : Nat} (hz : z < d) (hy : y < hh) (hx : x < w) :
    z * (hh * w) + y * w + x < d * (hh * w) :=
  calc z * (hh * w) + y * w + x < z * (hh * w) + y * w + w := by omega
  _ = z * (hh * w) + (y + 1) * w := by ring
  _ ≤ z * (hh * w) + hh * w := by
      have hyw : (y + 1) * w ≤ hh * w := Nat.mul_le_mul_right _ (by omega)
      omega
  _ = (z + 1) * (hh * w) := by ring
  _ ≤ d * (hh * w) := Nat.mul_le_mul_right _ (by omega)

/-- Claim C1 counterexample: in the concrete delta-encoded container
c1File with frame 0 storing 1.0, 1.0 and frame 1 storing the values
0.5, -0.5, retrieving frame 1 returns the stored bit patterns
0x3F000000, 0xBF000000 (0.5, -0.5) unchanged, not the bit patterns
0x3FC00000, 0x3F000000 of the sums 1.5, 0.5 the claim requires: the
decoder never adds the reference frame. -/
theorem claim_c1_counterexample :
    openContainer c1File = .ok c1Reader ∧
    c1Reader.header.delta_encoding = true ∧
    (get_frame c1Reader 0).1 = .ok [[1065353216, 1065353216]] ∧
    (get_frame c1Reader 1).1 = .ok [[1056964608, 3204448256]] ∧
    ([[1056964608, 3204448256]] : List (List Nat)) ≠ [[1069547520, 1056964608]] :=
  ⟨rfl, rfl, rfl, rfl, by decide⟩

/-- Claim C1 amended: the decoder ignores the delta-encoding flag
entirely, so every frame, including frame i greater than 0 with the
delta flag set, is returned as the stored grid values; in the concrete
example, get_frame 1 yields the stored 0.5, -0.5 patterns. -/
theorem claim_c1_amended :
    (∀ (file : List Nat) (h : AnimationHeader) (idx : FrameIndex) (b : Bool),
       read_frame file
         ⟨h.width, h.height, h.depth, h.channels, h.frame_count, h.dt,
          h.compression, b⟩ idx = read_frame file h idx) ∧
    (get_frame c1Reader 1).1 = .ok [[1056964608, 3204448256]] :=
  ⟨fun _ _ _ _ => rfl, rfl⟩

/-- Claim C2: with compression codec 0, delta flag clear, and a payload
of exactly width*height*depth*channels*4 bytes, read_frame succeeds with
one flat row of depth*height*width float bit patterns per channel, and
the element of channel c at depth z, row y, column x is the little-endian
32-bit value starting at payload byte
(c*depth*height*width + z*height*width + y*width + x)*4, so the decoded
grid reproduces the stored float buffer exactly. -/
theorem claim_c2 (file : List Nat) (h : AnimationHeader) (idx : FrameIndex)
    (hcomp : h.compression = 0) (hdelta : h.delta_encoding = false)
    (hlen : (readAt file idx.offset idx.size).length =
      h.width * h.height * h.depth * h.channels * 4) :
    ∃ g, read_frame file h idx = .ok g ∧ g.length = h.channels ∧
      ∀ c z y x : Nat, c < h.channels → z < h.depth → y < h.height → x < h.width →
        (g[c]?.bind fun chan => chan[z * (h.height * h.width) + y * h.width + x]?) =
          some (leNat (readAt (readAt file idx.offset idx.size)
            ((c * (h.depth * h.height * h.width) + z * (h.height * h.width) +
              y * h.width + x) * 4) 4)) := by
  refine ⟨expectedChannels (readAt file idx.offset idx.size)
      (h.width * h.height * h.depth) 0 h.channels, ?_, ?_, ?_⟩
  · unfold read_frame
    rw [if_neg (by rw [hcomp]; exact fun hc => hc rfl)]
    exact decodeChannels_ok _ _ h.channels 0
      (by rw [hlen]; exact le_of_eq (by ring))
  · rw [expectedChannels_length]
  · intro c z y x hc hz hy hx
    have hcfull : c * ((h.width * h.height * h.depth) * 4) +
        (h.width * h.height * h.depth) * 4 ≤
        (readAt file idx.offset idx.size).length := by
      rw [hlen]
      calc c * ((h.width * h.height * h.depth) * 4) +
            (h.width * h.height * h.depth) * 4
          = (c + 1) * ((h.width * h.height * h.depth) * 4) := by ring
        _ ≤ h.channels * ((h.width * h.height * h.depth) * 4) :=
            Nat.mul_le_mul_right _ (by omega)
        _ = h.width * h.height * h.depth * h.channels * 4 := by ring
    have hsl := readAt_slice_full (readAt file idx.offset idx.size)
      (h.width * h.height * h.depth) c hcfull
    have hk : z * (h.height * h.width) + y * h.width + x <
        h.width * h.height * h.depth := by
      calc z * (h.height * h.width) + y * h.width + x
          < h.depth * (h.height * h.width) := index3_lt hz hy hx
        _ = h.width * h.height * h.depth := by ring
    have hkb : 4 * (z * (h.height * h.width) + y * h.width + x) + 4 ≤
        (h.width * h.height * h.depth) * 4 := by
      calc 4 * (z * (h.height * h.width) + y * h.width + x) + 4
          = (z * (h.height * h.width) + y * h.width + x + 1) * 4 := by ring
        _ ≤ (h.width * h.height * h.depth) * 4 := Nat.mul_le_mul_right _ (by omega)
    rw [expectedChannels_get _ _ h.channels 0 c hc]
    simp only [Nat.zero_add, Option.some_bind]
    rw [bytesToF32List_get _ _ (by rw [hsl]; exact hkb),
        readAt_readAt _ _ _ _ _ hkb]
    have hpos : c * (h.width * h.height * h.depth) * 4 +
        4 * (z * (h.height * h.width) + y * h.width + x) =
        (c * (h.depth * h.height * h.width) + z * (h.height * h.width) +
          y * h.width + x) * 4 := by ring
    rw [hpos]

/-- Claim C2 witness: instantiation on a concrete two-channel payload of
one float per channel. -/
theorem claim_c2_witness :
    ∃ g, read_frame c2File c2Header ⟨0, 8⟩ = .ok g ∧ g.length = c2Header.channels ∧
      ∀ c z y x : Nat, c < c2Header.channels → z < c2Header.depth →
          y < c2Header.height → x < c2Header.width →
        (g[c]?.bind fun chan =>
            chan[z * (c2Header.height * c2Header.width) + y * c2Header.width + x]?) =
          some (leNat (readAt (readAt c2File (FrameIndex.mk 0 8).offset
              (FrameIndex.mk 0 8).size)
            ((c * (c2Header.depth * c2Header.height * c2Header.width) +
              z * (c2Header.height * c2Header.width) +
              y * c2Header.width + x) * 4) 4)) :=
  claim_c2 c2File c2Header ⟨0, 8⟩ rfl rfl (by decide)

/-- Claim C3: whenever the index table fits in the file, the reader
computes the start offset file_length - frame_count * 16 and returns
exactly frame_count entries in file order, entry i being the u64 pair
at byte start + 16 * i with the offset first and the size second. -/
theorem claim_c3 (file : List Nat) (h : AnimationHeader)
    (hlen : h.frame_count * 16 ≤ file.length) :
    ∃ l, read_frame_indices file h = .ok l ∧
      l.length = h.frame_count ∧
      ∀ i, i < h.frame_count →
        l[i]? = some
          ⟨leNat (readAt file (file.length - h.frame_count * 16 + 16 * i) 8),
           leNat (readAt file (file.length - h.frame_count * 16 + 16 * i + 8) 8)⟩ := by
  refine ⟨expectedEntries file (file.length - h.frame_count * 16) h.frame_count,
    ?_, ?_, ?_⟩
  · unfold read_frame_indices
    rw [if_neg (by omega)]
    have ht : ((file.length : Int) - (h.frame_count : Int) * 16).toNat
        = file.length - h.frame_count * 16 := by omega
    rw [ht]
    exact readEntries_ok file h.frame_count _ (by omega)
  · exact expectedEntries_length file h.frame_count _
  · intro i hi
    exact expectedEntries_get file h.frame_count _ i hi

/-- Claim C3 witness: instantiation on the concrete container c1File. -/
theorem claim_c3_witness :
    ∃ l, read_frame_indices c1File c1Header = .ok l ∧
      l.length = c1Header.frame_count ∧
      ∀ i, i < c1Header.frame_count →
        l[i]? = some
          ⟨leNat (readAt c1File (c1File.length - c1Header.frame_count * 16 + 16 * i) 8),
           leNat (readAt c1File
             (c1File.length - c1Header.frame_count * 16 + 16 * i + 8) 8)⟩ :=
  claim_c3 c1File c1Header (by decide)

/-- Claim C4 counterexample: decoding with codec id 7 and with codec id 3
produces the very same error value, a constant unsupported-compression
ValueError that does not carry the codec id, whereas the claim requires
the failure for codec 7 to be UnsupportedCodec(7), distinct from the
failure UnsupportedCodec(3) for codec 3. -/
theorem claim_c4_counterexample :
    read_frame c4File c4Header7 c4Idx = .error .compressionUnsupported ∧
    read_frame c4File c4Header3 c4Idx = .error .compressionUnsupported ∧
    read_frame c4File c4Header7 c4Idx = read_frame c4File c4Header3 c4Idx :=
  ⟨rfl, rfl, rfl⟩

/-- Claim C4 amended: any nonzero compression codec id fails with the one
generic unsupported-compression error, which does not identify the id
(there is no codec registry); codec id 0 proceeds to raw float decoding
and never produces that error. The codec id is a container-level header
field, so frames of one container cannot carry different codec ids. -/
theorem claim_c4_amended (file : List Nat) (h : AnimationHeader) (idx : FrameIndex) :
    (h.compression ≠ 0 → read_frame file h idx = .error .compressionUnsupported) ∧
    (h.compression = 0 → read_frame file h idx ≠ .error .compressionUnsupported) := by
  constructor
  · intro hz
    unfold read_frame
    rw [if_pos hz]
  · intro hz
    unfold read_frame
    rw [if_neg (by rw [hz]; exact fun hc => hc rfl)]
    exact decodeChannels_no_comp _ _ h.channels 0

/-- Claim C4 witness: codec 7 fails with the generic compression error on
a concrete input while codec 0 on the same bytes does not. -/
theorem claim_c4_witness :
    read_frame c4File c4Header7 c4Idx = .error .compressionUnsupported ∧
    read_frame c4File c4Header0 c4Idx ≠ .error .compressionUnsupported :=
  ⟨(claim_c4_amended c4File c4Header7 c4Idx).1 (by decide),
   (claim_c4_amended c4File c4Header0 c4Idx).2 rfl⟩

/-- Claim C5 counterexample: in the concrete container c5File the frame
payload is 8 bytes while width*height*depth*channels*4 = 4, yet decoding
succeeds and returns the first float, silently ignoring the excess
bytes, whereas the claim requires any length mismatch to fail. -/
theorem claim_c5_counterexample :
    read_header c5File = .ok c5Header ∧
    read_frame_indices c5File c5Header = .ok [⟨52, 8⟩] ∧
    (readAt c5File 52 8).length = 8 ∧
    c5Header.width * c5Header.height * c5Header.depth * c5Header.channels * 4 = 4 ∧
    read_frame c5File c5Header ⟨52, 8⟩ = .ok [[1065353216]] :=
  ⟨rfl, rfl, rfl, rfl, rfl⟩

/-- Claim C5 amended: with codec 0, decoding fails exactly when the
payload is shorter than width*height*depth*channels*4 bytes (through a
frombuffer or reshape ValueError); a payload of that length or longer
decodes successfully, ignoring any surplus bytes. -/
theorem claim_c5_amended (file : List Nat) (h : AnimationHeader) (idx : FrameIndex)
    (hcomp : h.compression = 0) :
    (∃ g, read_frame file h idx = .ok g) ↔
      h.width * h.height * h.depth * h.channels * 4 ≤
        (readAt file idx.offset idx.size).length := by
  constructor
  · rintro ⟨g, hg⟩
    by_contra hlt
    push_neg at hlt
    have hch : 0 < h.channels := by
      rcases Nat.eq_zero_or_pos h.channels with h0 | hp
      · rw [h0] at hlt
        simp at hlt
      · exact hp
    rcases decodeChannels_err (readAt file idx.offset idx.size)
        (h.width * h.height * h.depth) h.channels 0 hch
        (by calc (readAt file idx.offset idx.size).length
              < h.width * h.height * h.depth * h.channels * 4 := hlt
            _ = (0 + h.channels) * ((h.width * h.height * h.depth) * 4) := by ring)
      with ⟨e, he⟩
    unfold read_frame at hg
    rw [if_neg (by rw [hcomp]; exact fun hc => hc rfl), he] at hg
    exact Except.noConfusion hg
  · intro hle
    refine ⟨expectedChannels (readAt file idx.offset idx.size)
        (h.width * h.height * h.depth) 0 h.channels, ?_⟩
    unfold read_frame
    rw [if_neg (by rw [hcomp]; exact fun hc => hc rfl)]
    exact decodeChannels_ok _ _ h.channels 0
      (by calc (0 + h.channels) * ((h.width * h.height * h.depth) * 4)
            = h.width * h.height * h.depth * h.channels * 4 := by ring
          _ ≤ _ := hle)

/-- Claim C5 witness: instantiation on the concrete container c5File,
whose oversized 8-byte payload satisfies the success condition. -/
theorem claim_c5_witness :
    (∃ g, read_frame c5File c5Header ⟨52, 8⟩ = .ok g) ↔
      c5Header.width * c5Header.height * c5Header.depth * c5Header.channels * 4 ≤
        (readAt c5File (FrameIndex.mk 52 8).offset (FrameIndex.mk 52 8).size).length :=
  claim_c5_amended c5File c5Header ⟨52, 8⟩ rfl

/-- Claim C6 counterexample: index parsing of the intact container c6File
succeeds; after removing the final byte it still succeeds, returning a
shifted garbage entry instead of the truncation error the claim
requires; and with the file cut to 60 bytes the computed start offset 44
precedes the end of the 52-byte header region, yet parsing succeeds. -/
theorem claim_c6_counterexample :
    read_frame_indices c6File c6Header = .ok [⟨52, 4⟩] ∧
    read_frame_indices (c6File.take 71) c6Header = .ok [⟨13375, 1024⟩] ∧
    read_frame_indices (c6File.take 60) c6Header = .ok [⟨0, 224403652608⟩] :=
  ⟨rfl, rfl, rfl⟩

/-- Claim C6 amended: no truncation validation exists. When the file is
shorter than frame_count * 16 bytes the computed start offset is
negative and the seek raises OSError; otherwise parsing always succeeds,
reading entries from the computed offset even when it overlaps the
header, so a shrunken file yields shifted entries rather than an
error. -/
theorem claim_c6_amended :
    (∀ (file : List Nat) (h : AnimationHeader),
       file.length < h.frame_count * 16 →
       read_frame_indices file h = .error .negativeSeekError) ∧
    (∀ (file : List Nat) (h : AnimationHeader),
       h.frame_count * 16 ≤ file.length →
       ∃ l, read_frame_indices file h = .ok l) := by
  constructor
  · intro file h hlt
    unfold read_frame_indices
    rw [if_pos (by omega)]
  · intro file h hle
    refine ⟨expectedEntries file (file.length - h.frame_count * 16) h.frame_count, ?_⟩
    unfold read_frame_indices
    rw [if_neg (by omega)]
    have ht : ((file.length : Int) - (h.frame_count : Int) * 16).toNat
        = file.length - h.frame_count * 16 := by omega
    rw [ht]
    exact readEntries_ok file h.frame_count _ (by omega)

/-- Claim C6 witness: the empty file fails with the negative-seek OSError
for a one-frame header, and the shrunken c6File parses successfully. -/
theorem claim_c6_witness :
    read_frame_indices [] c6Header = .error .negativeSeekError ∧
    ∃ l, read_frame_indices (c6File.take 71) c6Header = .ok l :=
  ⟨claim_c6_amended.1 [] c6Header (by decide),
   claim_c6_amended.2 (c6File.take 71) c6Header (by decide)⟩

/-- Claim C7: an input whose first 4 bytes differ from the FLWA signature
fails header parsing with the bad-magic error; the failure is determined
by the first 4 bytes alone, so no byte beyond them influences the
result; and an input whose first 4 bytes equal the signature never
produces a bad-magic failure. -/
theorem claim_c7 :
    (∀ file : List Nat, file.take 4 ≠ magicBytes →
       read_header file = .error (.invalidMagic (file.take 4))) ∧
    (∀ f1 f2 : List Nat, f1.take 4 = f2.take 4 → f1.take 4 ≠ magicBytes →
       read_header f1 = read_header f2) ∧
    (∀ file m : List Nat, file.take 4 = magicBytes →
       read_header file ≠ .error (.invalidMagic m)) := by
  have p1 : ∀ file : List Nat, file.take 4 ≠ magicBytes →
      read_header file = .error (.invalidMagic (file.take 4)) := by
    intro file hbad
    unfold read_header
    rw [readAt_zero, if_pos hbad]
  refine ⟨p1, ?_, ?_⟩
  · intro f1 f2 heq hbad
    rw [p1 f1 hbad, p1 f2 (by rw [← heq]; exact hbad), heq]
  · intro file m hgood
    unfold read_header
    rw [readAt_zero, if_neg (by rw [hgood]; exact fun hc => hc rfl)]
    simp only [bind_ite_unpack]
    intro hcon
    repeat' split at hcon
    all_goals simp at hcon

/-- Claim C7 witness: a concrete input with wrong magic fails with the
bad-magic error, and a concrete input with the right magic does not. -/
theorem claim_c7_witness :
    read_header [0, 0, 0, 0] = .error (.invalidMagic [0, 0, 0, 0]) ∧
    read_header c10File ≠ .error (.invalidMagic [70, 76, 87, 65]) :=
  ⟨claim_c7.1 [0, 0, 0, 0] (by decide),
   claim_c7.2.2 c10File [70, 76, 87, 65] (by decide)⟩

/-- Claim C8: whenever header parsing succeeds, the compression codec is
the low 4 bits of the little-endian flags word at offset 6 and the delta
flag is its bit 4; and two inputs that agree outside the flags bytes and
whose flags words agree on bits 0 through 4 parse identically, so the
reserved bits 5 through 15 are ignored and never cause rejection. -/
theorem claim_c8 :
    (∀ (file : List Nat) (h : AnimationHeader), read_header file = .ok h →
       h.compression = leNat (readAt file 6 2) &&& 0x0F ∧
       h.delta_encoding = (leNat (readAt file 6 2) &&& 1 <<< 4 != 0)) ∧
    (∀ f1 f2 : List Nat, f1.take 6 = f2.take 6 → f1.drop 8 = f2.drop 8 →
       f1.length = f2.length →
       leNat (readAt f1 6 2) &&& 0x1F = leNat (readAt f2 6 2) &&& 0x1F →
       read_header f1 = read_header f2) := by
  constructor
  · intro file h hok
    unfold read_header at hok
    simp only [bind_ite_unpack] at hok
    repeat' split at hok
    any_goals exact Except.noConfusion hok
    injection hok with hh
    subst hh
    exact ⟨rfl, rfl⟩
  · intro f1 f2 h6 h8 hlen h31
    have e04 : readAt f1 0 4 = readAt f2 0 4 := readAt_of_take h6 (by omega)
    have e42 : readAt f1 4 2 = readAt f2 4 2 := readAt_of_take h6 (by omega)
    have e84 : readAt f1 8 4 = readAt f2 8 4 := readAt_of_drop h8 (by omega)
    have e124 : readAt f1 12 4 = readAt f2 12 4 := readAt_of_drop h8 (by omega)
    have e164 : readAt f1 16 4 = readAt f2 16 4 := readAt_of_drop h8 (by omega)
    have e204 : readAt f1 20 4 = readAt f2 20 4 := readAt_of_drop h8 (by omega)
    have e248 : readAt f1 24 8 = readAt f2 24 8 := readAt_of_drop h8 (by omega)
    have e324 : readAt f1 32 4 = readAt f2 32 4 := readAt_of_drop h8 (by omega)
    have e62len : (readAt f1 6 2).length = (readAt f2 6 2).length := by
      rw [readAt_length, readAt_length, hlen]
    rcases land_low_five h31 with ⟨efl15, efl16⟩
    unfold read_header
    simp only [bind_ite_unpack]
    rw [e04, e42, e84, e124, e164, e204, e248, e324, e62len, efl15, efl16]

/-- Claim C8 witness: c10File parses with codec and delta flag taken from
its flags word, and changing only the high flags byte (reserved bits)
leaves the parse result unchanged. -/
theorem claim_c8_witness :
    (c10Header.compression = leNat (readAt c10File 6 2) &&& 0x0F ∧
     c10Header.delta_encoding = (leNat (readAt c10File 6 2) &&& 1 <<< 4 != 0)) ∧
    read_header c8FileB = read_header c10File :=
  ⟨claim_c8.1 c10File c10Header rfl,
   claim_c8.2 c8FileB c10File (by decide) (by decide) (by decide) (by decide)⟩

/-- Claim C9: opening a container parses the header and the index list
exactly once, and retrieving any frame, whether it succeeds or fails,
leaves the stored header, index list and file bytes of the reader state
unchanged; only the file position component differs. -/
theorem claim_c9 (file : List Nat) (r : AnimationReader)
    (hopen : openContainer file = .ok r) :
    read_header file = .ok r.header ∧
    read_frame_indices file r.header = .ok r.indices ∧
    ∀ i : Nat,
      (get_frame r i).2.header = r.header ∧
      (get_frame r i).2.indices = r.indices ∧
      (get_frame r i).2.file = r.file := by
  unfold openContainer at hopen
  cases hh : read_header file with
  | error e =>
    rw [hh] at hopen
    exact Except.noConfusion hopen
  | ok hdr =>
    rw [hh, except_bind_ok] at hopen
    cases hi : read_frame_indices file hdr with
    | error e =>
      rw [hi] at hopen
      exact Except.noConfusion hopen
    | ok l =>
      rw [hi, except_map_ok] at hopen
      injection hopen with hr
      subst hr
      exact ⟨rfl, hi, fun i => get_frame_preserves _ i⟩

/-- Claim C9 witness: instantiation on the concrete container c1File. -/
theorem claim_c9_witness :
    read_header c1File = .ok c1Reader.header ∧
    read_frame_indices c1File c1Reader.header = .ok c1Reader.indices ∧
    ∀ i : Nat,
      (get_frame c1Reader i).2.header = c1Reader.header ∧
      (get_frame c1Reader i).2.indices = c1Reader.indices ∧
      (get_frame c1Reader i).2.file = c1Reader.file :=
  claim_c9 c1File c1Reader rfl

/-- Claim C10: when the parsed frame count is zero, index parsing succeeds
with the empty list (the computed start offset equals the file length,
so no entry bytes are read), opening the container succeeds, and
read_frame never consults the frame count at all. -/
theorem claim_c10 (file : List Nat) (h : AnimationHeader)
    (hok : read_header file = .ok h) (hfc : h.frame_count = 0) :
    read_frame_indices file h = .ok [] ∧
    openContainer file = .ok ⟨file, h, [], file.length⟩ ∧
    ∀ (idx : FrameIndex) (n : Nat),
      read_frame file
        ⟨h.width, h.height, h.depth, h.channels, n, h.dt, h.compression,
         h.delta_encoding⟩ idx = read_frame file h idx := by
  have hidx : read_frame_indices file h = .ok [] := by
    unfold read_frame_indices
    rw [hfc]
    rw [if_neg (by omega)]
    rfl
  refine ⟨hidx, ?_, fun idx n => rfl⟩
  unfold openContainer
  rw [hok, except_bind_ok, hidx, except_map_ok]

/-- Claim C10 witness: the concrete zero-frame container c10File opens
successfully with an empty index list. -/
theorem claim_c10_witness :
    read_frame_indices c10File c10Header = .ok [] ∧
    openContainer c10File = .ok ⟨c10File, c10Header, [], c10File.length⟩ ∧
    ∀ (idx : FrameIndex) (n : Nat),
      read_frame c10File
        ⟨c10Header.width, c10Header.height, c10Header.depth, c10Header.channels,
         n, c10Header.dt, c10Header.compression, c10Header.delta_encoding⟩ idx =
        read_frame c10File c10Header idx :=
  claim_c10 c10File c10Header rfl rfl

end Flwa
